import Mathlib

/-!
# NoteVLM — verification of the digitization pipeline and lifecycle manager

Shallow embedding of the NoteVLM document-digitization application.
The frontend API client (`frontend/lib/api.ts`) and the components
`FilePreview.tsx` and `DocumentEditor.tsx` are embedded directly from their
TypeScript source.  The FastAPI backend modules (`app/docker_manager.py`,
`app/qwen_client.py`, the routers) are not part of the source tree available
here; the definitions concerning them are modelled from the specification
and are marked `Modelled from the spec:` in their doc comments.
-/

namespace NoteVLM

/-! ## Frontend data model (`frontend/lib/api.ts`)

`LayoutImage`, `LayoutPage` and `LayoutDocument` mirror the TypeScript
types of the same names: a layout document is a versioned list of pages,
each page carrying a 1-based `index`, its extracted `text`, and a
reference to the rendered page image. -/

structure LayoutImage where
  url : String
  width : Nat
  height : Nat
  deriving Repr, DecidableEq

structure LayoutPage where
  index : Nat
  text : String
  image : LayoutImage
  deriving Repr, DecidableEq

structure LayoutDocument where
  version : Nat
  pages : List LayoutPage
  deriving Repr, DecidableEq

/-- `s.startsWith(pre)` of JS / `str.startswith(pre)` of Python, embedded
over the character lists of the strings. -/
def strStartsWith (s pre : String) : Bool :=
  pre.data.isPrefixOf s.data

/-! ## `downloadUrl` (`frontend/lib/api.ts`)

```ts
export function downloadUrl(path: string): string {
  if (path.startsWith("http://") || path.startsWith("https://")) {
    return path;
  }
  const normalizedPath = path.startsWith("/") ? path : `/${path}`;
  return `${DOWNLOAD_BASE}${normalizedPath}`;
}
```

`DOWNLOAD_BASE` is a module-level constant (the configured download base
URL with a trailing slash stripped); it is passed here as the `base`
argument. -/

def downloadUrl (base path : String) : String :=
  if strStartsWith path "http://" || strStartsWith path "https://" then
    path
  else
    let normalizedPath := if strStartsWith path "/" then path else "/" ++ path
    base ++ normalizedPath

/-! ## `FilePreview` zoom state (`frontend/components/FilePreview.tsx`)

```ts
const [zoom, setZoom] = useState(1);
const handleZoom = (delta: number) => {
  setZoom((prev) => {
    const next = Math.min(3, Math.max(0.5, Number((prev + delta).toFixed(2))));
    return next;
  });
};
const resetZoom = () => setZoom(1);
```

Numbers are modelled as rationals; `Number((x).toFixed(2))` is modelled as
rounding to two decimal places. -/

def roundTo2 (q : ℚ) : ℚ := (round (q * 100) : ℤ) / 100

def handleZoom (prev delta : ℚ) : ℚ :=
  min 3 (max (1/2) (roundTo2 (prev + delta)))

def resetZoom : ℚ := 1

/-- A user interaction with the zoom control: a `+`/`-` button press with
some delta, or a press of the Reset button (the `useEffect` that resets the
zoom when the previewed source changes behaves like Reset as well). -/
inductive ZoomOp where
  | zoomBy (delta : ℚ)
  | reset
  deriving Repr

def applyZoomOp (z : ℚ) : ZoomOp → ℚ
  | .zoomBy delta => handleZoom z delta
  | .reset => resetZoom

/-- The zoom value after a sequence of interactions, starting from the
initial `useState(1)` value. -/
def runZoomOps (ops : List ZoomOp) : ℚ :=
  ops.foldl applyZoomOp 1

/-! ## `updatePageText` (`frontend/components/DocumentEditor.tsx`)

```ts
const updatePageText = useCallback(
  (value: string) => {
    setLayout((previous) => {
      if (!previous) { return previous; }
      return {
        ...previous,
        pages: previous.pages.map((page) =>
          page.index === currentPage?.index ? { ...page, text: value } : page
        )
      };
    });
  },
  [currentPage?.index]
);
```

`target` is `currentPage.index`, the 1-based index of the page being
edited. -/

def updatePageText (previous : LayoutDocument) (target : Nat) (value : String) :
    LayoutDocument :=
  { previous with
    pages := previous.pages.map fun page =>
      if page.index = target then { page with text := value } else page }

/-! ## `startStreaming` tokenization (`frontend/components/DocumentEditor.tsx`)

```ts
const tokens = text.match(/\s+|\S+/g) ?? [];
...
const pushNext = () => {
  setContent((prev) => prev + tokens[index]);
  index += 1;
  ...
};
```

The regex `/\s+|\S+/g` splits the already-complete stored content into the
maximal runs of whitespace and of non-whitespace characters, in order; the
animation then appends `tokens[0], tokens[1], ...` to an initially empty
content string.  No network request is involved: the only input is the
`text` argument.  `tokenRuns` computes those maximal runs over the
character list (`b` is the character class of the run being accumulated);
`streamedContent` is the content reached when the animation finishes. -/

def tokenRunsAux (cur : List Char) (b : Bool) : List Char → List (List Char)
  | [] => [cur.reverse]
  | c :: cs =>
      if c.isWhitespace = b then tokenRunsAux (c :: cur) b cs
      else cur.reverse :: tokenRunsAux [c] c.isWhitespace cs

def tokenRuns : List Char → List (List Char)
  | [] => []
  | c :: cs => tokenRunsAux [c] c.isWhitespace cs

def streamTokens (s : String) : List String :=
  (tokenRuns s.data).map fun cs => ⟨cs⟩

def streamedContent (s : String) : String :=
  (streamTokens s).foldl (· ++ ·) ""

/-! ## Service Lifecycle Manager (backend `app/docker_manager.py`)

The backend module is not in the available source tree; the state machine
is modelled from the specification (§4.3). -/

/-- Per-model lifecycle status: `STOPPED → STARTING → READY`, or
`STARTING → FAILED`. -/
inductive Status where
  | stopped | starting | ready | failed
  deriving Repr, DecidableEq

/-- A model holds the GPU when its backing service is `STARTING` or
`READY`. -/
def Status.isActive : Status → Bool
  | .starting => true
  | .ready => true
  | _ => false

/-- Modelled from the spec: the static configuration surface of the
Lifecycle Manager.  `managedModels` lists the model identifiers that have a
registered backing service (`*_SERVICE_NAMES` mappings); a model absent
from it is treated as always-`READY` (externally managed endpoint). -/
structure LifecycleConfig where
  managedModels : List String
  deriving Repr

/-- A command issued against the container runtime, identified here by the
model id (the service-name indirection of the config is immaterial to the
claims). -/
inductive Command where
  | start (modelId : String)
  | stop (modelId : String)
  deriving Repr, DecidableEq

/-- Modelled from the spec: `ensure_ready(model_id)`
(`app/docker_manager.py`, `ensure_model_service`, module not in the source
tree).  Steps, per §4.3: no-op for unmanaged models; no-op fast path when
already `READY`; otherwise stop every other model currently `READY` or
`STARTING`, start `model_id`, and poll until healthy or timeout.  The
`healthy` argument abstracts the polling outcome: `true` when the service
reports healthy before the timeout, `false` when the timeout elapses
(`ServiceStartupTimeoutError`).  Returns the new state table, the stop and
start commands issued, and whether the call succeeded. -/
def ensureReady (cfg : LifecycleConfig) (st : String → Status) (modelId : String)
    (healthy : Bool) : (String → Status) × List Command × Bool :=
  if modelId ∉ cfg.managedModels then
    (st, [], true)
  else if st modelId = .ready then
    (st, [], true)
  else
    let stops := (cfg.managedModels.filter
        fun m => m ≠ modelId && (st m).isActive).map Command.stop
    let final : String → Status := fun m =>
      if m = modelId then (if healthy then .ready else .failed)
      else if (st m).isActive then .stopped
      else st m
    (final, stops ++ [Command.start modelId], healthy)

/-- The single-active-model invariant: at most one model identifier is in
state `STARTING` or `READY`. -/
def AtMostOneActive (st : String → Status) : Prop :=
  ∀ m m', (st m).isActive → (st m').isActive → m = m'

/-- The initial lifecycle table: every model's backing service is
`STOPPED`. -/
def initialLifecycle : String → Status := fun _ => .stopped

/-- The lifecycle table reached from the initial state by a sequence of
`ensure_ready` calls, each given as (model id, health-poll outcome).
`ensure_ready` is the only public operation that mutates the table (per
§4.3 the manager is the sole holder of the start/stop capability; every
other operation reads the table). -/
def runEnsureCalls (cfg : LifecycleConfig) (calls : List (String × Bool)) :
    String → Status :=
  calls.foldl (fun st c => (ensureReady cfg st c.1 c.2).1) initialLifecycle

/-! ## Conversion pipeline (backend `app/qwen_client.py` and routers)

The backend modules are not in the available source tree; the pipeline is
modelled from the specification (§4.1, §4.2, §4.4, §7).  File contents are
not modelled beyond the existence of a path, since the claims concern
which rows and files exist. -/

inductive DocFormat where
  | markdown | latex | layout
  deriving Repr, DecidableEq

/-- The pipeline error taxonomy of §7 (restricted to the errors a
conversion can raise). -/
inductive PipelineError where
  | notFound
  | unsupportedMedia
  | rasterization
  | emptyDocument
  | startupTimeout
  | inference (pageIndex : Nat)
  deriving Repr, DecidableEq

/-- An uploaded binary as seen by the Rasterizer: its declared mime type,
its content viewed as a single page image (used when the mime type is an
image), and the outcome of rendering it as a PDF (used when the mime type
is PDF; `.error` models a corrupt PDF that fails to rasterize). -/
structure UploadFile where
  mimeType : String
  imageContent : String
  pdfPages : Except Unit (List String)
  deriving Repr

/-- Modelled from the spec: the Rasterizer (§4.1, backend
`app/qwen_client.py`, module not in the source tree).  An image mime type
yields a single-element page sequence; a PDF is rendered page by page up
to `limit` (`PDF_PAGE_LIMIT`), silently dropping pages beyond the limit; a
corrupt PDF fails with `RasterizationError`; any other mime type fails
with `UnsupportedMediaError`. -/
def rasterize (file : UploadFile) (limit : Nat) : Except PipelineError (List String) :=
  if strStartsWith file.mimeType "image/" then .ok [file.imageContent]
  else if file.mimeType = "application/pdf" then
    match file.pdfPages with
    | .error _ => .error .rasterization
    | .ok pages => .ok (pages.take limit)
  else .error .unsupportedMedia

/-- Modelled from the spec: the per-page inference loop of the Inference
Gateway (§4.2).  `infer i p` abstracts one HTTP inference call for page
`p` with 1-based index `i` (`.error` models a non-2xx response or
malformed payload).  Pages are processed sequentially in order; the first
failure aborts with the failing page index (`InferenceError`). -/
def runInference (infer : Nat → String → Except Unit String) :
    Nat → List String → Except Nat (List String)
  | _, [] => .ok []
  | i, p :: ps =>
    match infer i p with
    | .error _ => .error i
    | .ok t =>
      match runInference infer (i+1) ps with
      | .error j => .error j
      | .ok ts => .ok (t :: ts)

/-- The on-disk path of a layout page image:
`layout-images/<doc_id>/<page_index>.png` (§6). -/
def layoutImagePath (docId : Nat) (pageIndex : Nat) : String :=
  "layout-images/" ++ toString docId ++ "/" ++ toString pageIndex ++ ".png"

/-- Modelled from the spec: assembly of the `LayoutDocument` pages from
the per-page inference texts, numbering pages consecutively from `i`
(called with 1, so indices are 1-based).  The rendered image dimensions
are not modelled (no claim concerns them). -/
def layoutPagesFrom (docId : Nat) : Nat → List String → List LayoutPage
  | _, [] => []
  | i, t :: ts =>
      { index := i, text := t,
        image := { url := layoutImagePath docId i, width := 0, height := 0 } }
        :: layoutPagesFrom docId (i+1) ts

/-- A `Document` database row (backend `app/models.py`, module not in the
source tree; fields per §3).  For layout format the serialized
`LayoutDocument` is carried alongside the artifact path. -/
structure DocumentRow where
  id : Nat
  uploadId : String
  title : String
  format : DocFormat
  storedName : String
  layout : Option LayoutDocument
  deriving Repr, DecidableEq

/-- One line of the append-only `logs/conversions.log` (§3; durations are
not modelled, no claim concerns them). -/
structure ConversionLogEntry where
  modelId : String
  pageCount : Nat
  deriving Repr, DecidableEq

/-- The persistent state the pipeline writes to: `Document` rows in the
database, artifact file paths on disk, and conversion log lines. -/
structure PipelineState where
  documents : List DocumentRow
  files : List String
  logs : List ConversionLogEntry
  deriving Repr, DecidableEq

structure DigitalizeRequest where
  targetFormat : DocFormat
  modelId : String
  title : String
  deriving Repr, DecidableEq

/-- Modelled from the spec: the conversion pipeline for a loaded upload
(§4.4 steps 2–7).  `serviceReady` is the outcome of
`ServiceLifecycleManager.ensure_ready(model_id)` (step 3): `false` models
`ServiceStartupTimeoutError`, propagated unchanged.  `docId` is the
identifier allocated for the new `Document` row.  All persistence (rows,
artifact files, log line) happens after every page's inference has
succeeded. -/
def digitalizeFile (uploadId : String) (file : UploadFile) (limit : Nat)
    (serviceReady : Bool) (infer : Nat → String → Except Unit String)
    (req : DigitalizeRequest) (docId : Nat) (st : PipelineState) :
    PipelineState × Except PipelineError (List DocumentRow) :=
    match rasterize file limit with
    | .error e => (st, .error e)
    | .ok pages =>
      if pages.isEmpty then (st, .error .emptyDocument)
      else if !serviceReady then (st, .error .startupTimeout)
      else
        match runInference infer 1 pages with
        | .error i => (st, .error (.inference i))
        | .ok texts =>
          match req.targetFormat with
          | .layout =>
            let lpages := layoutPagesFrom docId 1 texts
            let jsonPath := "documents/" ++ toString docId ++ ".json"
            let doc : DocumentRow :=
              { id := docId, uploadId := uploadId, title := req.title,
                format := .layout, storedName := jsonPath,
                layout := some { version := 1, pages := lpages } }
            ({ documents := st.documents ++ [doc],
               files := st.files ++ lpages.map (fun p => p.image.url) ++ [jsonPath],
               logs := st.logs ++ [{ modelId := req.modelId, pageCount := pages.length }] },
             .ok [doc])
          | fmt =>
            let path := "documents/" ++ toString docId ++
              (if fmt = .latex then ".tex" else ".md")
            let doc : DocumentRow :=
              { id := docId, uploadId := uploadId, title := req.title,
                format := fmt, storedName := path, layout := none }
            ({ documents := st.documents ++ [doc],
               files := st.files ++ [path],
               logs := st.logs ++ [{ modelId := req.modelId, pageCount := pages.length }] },
             .ok [doc])

/-- Modelled from the spec: `digitalize(upload_id, target_format, model_id)`
(§4.4).  Step 1 loads the Upload (`upload = none` models a missing upload,
`NotFoundError`); the remaining steps are `digitalizeFile`. -/
def digitalize (uploadId : String) (upload : Option UploadFile) (limit : Nat)
    (serviceReady : Bool) (infer : Nat → String → Except Unit String)
    (req : DigitalizeRequest) (docId : Nat) (st : PipelineState) :
    PipelineState × Except PipelineError (List DocumentRow) :=
  match upload with
  | none => (st, .error .notFound)
  | some file => digitalizeFile uploadId file limit serviceReady infer req docId st

end NoteVLM

namespace NoteVLM

/-! ## Helper lemmas -/

theorem digitalize_some (uploadId : String) (file : UploadFile) (limit : Nat)
    (serviceReady : Bool) (infer : Nat → String → Except Unit String)
    (req : DigitalizeRequest) (docId : Nat) (st : PipelineState) :
    digitalize uploadId (some file) limit serviceReady infer req docId st
      = digitalizeFile uploadId file limit serviceReady infer req docId st := rfl

/-- Flattening the runs produced by `tokenRunsAux` recovers the pending
run (reversed accumulator) followed by the remaining input. -/
theorem tokenRunsAux_flatten (cs : List Char) :
    ∀ (cur : List Char) (b : Bool), (tokenRunsAux cur b cs).flatten = cur.reverse ++ cs := by
  induction cs with
  | nil => intro cur b; simp [tokenRunsAux]
  | cons c cs ih =>
      intro cur b
      by_cases h : c.isWhitespace = b
      · rw [tokenRunsAux, if_pos h, ih]
        simp
      · rw [tokenRunsAux, if_neg h]
        simp [ih]

theorem tokenRuns_flatten (l : List Char) : (tokenRuns l).flatten = l := by
  cases l with
  | nil => rfl
  | cons c cs => rw [tokenRuns, tokenRunsAux_flatten]; rfl

theorem streamTokens_foldl_data (gs : List (List Char)) :
    ∀ (acc : String),
      ((gs.map fun cs => (⟨cs⟩ : String)).foldl (· ++ ·) acc).data = acc.data ++ gs.flatten := by
  induction gs with
  | nil => intro acc; simp
  | cons g gs ih =>
      intro acc
      simp only [List.map_cons, List.foldl_cons, List.flatten_cons]
      rw [ih, String.data_append]
      simp

/-- A single `ensure_ready` call preserves the single-active-model
invariant: after the stop-others/start-mine sequence, only the requested
model can be `STARTING` or `READY`. -/
theorem ensureReady_preserves (cfg : LifecycleConfig) (st : String → Status)
    (modelId : String) (healthy : Bool) (h : AtMostOneActive st) :
    AtMostOneActive (ensureReady cfg st modelId healthy).1 := by
  unfold ensureReady
  by_cases h1 : modelId ∉ cfg.managedModels
  · simpa [h1] using h
  · by_cases h2 : st modelId = .ready
    · simpa [h1, h2] using h
    · simp only [h1, h2, if_false, if_true, ite_false]
      intro m m' hm hm'
      have key : ∀ x, ((if x = modelId then (if healthy then Status.ready else Status.failed)
          else if (st x).isActive then Status.stopped else st x)).isActive → x = modelId := by
        intro x hx
        by_contra hne
        rw [if_neg hne] at hx
        by_cases ha : (st x).isActive
        · rw [if_pos ha] at hx; simp [Status.isActive] at hx
        · rw [if_neg ha] at hx; exact ha (by simpa using hx)
      rw [key m (by simpa using hm), key m' (by simpa using hm')]

theorem runInference_length (infer : Nat → String → Except Unit String) :
    ∀ (i : Nat) (ps ts : List String),
      runInference infer i ps = .ok ts → ts.length = ps.length := by
  intro i ps
  induction ps generalizing i with
  | nil => intro ts h; simp [runInference] at h; simp [← h]
  | cons p ps ih =>
      intro ts h
      rw [runInference] at h
      rcases h1 : infer i p with e | t <;> rw [h1] at h
      · exact absurd h (by simp)
      · rcases h2 : runInference infer (i+1) ps with j | ts' <;> rw [h2] at h
        · exact absurd h (by simp)
        · cases h
          simp [List.length_cons, ih (i+1) ts' h2]

theorem layoutPagesFrom_length (docId : Nat) :
    ∀ (i : Nat) (ts : List String), (layoutPagesFrom docId i ts).length = ts.length := by
  intro i ts
  induction ts generalizing i with
  | nil => rfl
  | cons t ts ih => simp [layoutPagesFrom, ih]

theorem layoutPagesFrom_map_index (docId : Nat) :
    ∀ (i : Nat) (ts : List String),
      (layoutPagesFrom docId i ts).map LayoutPage.index = List.range' i ts.length := by
  intro i ts
  induction ts generalizing i with
  | nil => rfl
  | cons t ts ih => simp [layoutPagesFrom, List.range'_succ, ih]

/-! ## Claim theorems -/

/-- Claim C1: every lifecycle table reachable from the initial all-`STOPPED`
state through any sequence of `ensure_ready` calls (for any model
identifiers and any health-poll outcomes) has at most one model identifier
in state `STARTING` or `READY`; `ensure_ready` is the only public
operation that mutates the table, so every public operation preserves the
invariant over reachable states. -/
theorem lifecycle_single_active (cfg : LifecycleConfig) (calls : List (String × Bool)) :
    AtMostOneActive (runEnsureCalls cfg calls) := by
  have key : ∀ (cs : List (String × Bool)) (st : String → Status),
      AtMostOneActive st →
      AtMostOneActive (cs.foldl (fun s c => (ensureReady cfg s c.1 c.2).1) st) := by
    intro cs
    induction cs with
    | nil => intro st h; exact h
    | cons c rest ih =>
        intro st h
        exact ih _ (ensureReady_preserves cfg st c.1 c.2 h)
  exact key calls initialLifecycle
    (by intro m m' hm _; simp [initialLifecycle, Status.isActive] at hm)

/-- Claim C7: `ensure_ready` is idempotent.  First conjunct: if the model
is already `READY` the call returns immediately, issuing no stop or start
command and leaving the table unchanged.  Second conjunct: after a
successful `ensure_ready` call for a model, a second call for the same
model (with no intervening call for a different model) issues zero
stop/start commands, leaves the table unchanged, and succeeds. -/
theorem ensureReady_idem (cfg : LifecycleConfig) (st : String → Status)
    (modelId : String) (b b2 : Bool) :
    (st modelId = .ready → ensureReady cfg st modelId b = (st, [], true)) ∧
    ensureReady cfg (ensureReady cfg st modelId true).1 modelId b2
      = ((ensureReady cfg st modelId true).1, [], true) := by
  constructor
  · intro hready
    unfold ensureReady
    by_cases h1 : modelId ∉ cfg.managedModels <;> simp [h1, hready]
  · by_cases h1 : modelId ∉ cfg.managedModels
    · simp [ensureReady, h1]
    · by_cases h2 : st modelId = .ready
      · simp [ensureReady, h1, h2]
      · have hfst : (ensureReady cfg st modelId true).1 modelId = .ready := by
          simp [ensureReady, h1, h2]
        conv_lhs => rw [ensureReady]
        simp [h1, hfst]

/-- Witness for C7 at a concrete configuration and table. -/
theorem ensureReady_idem_witness :
    ensureReady ⟨["m"]⟩ (fun _ => Status.ready) "m" true
      = ((fun _ => Status.ready), [], true) ∧
    ensureReady ⟨["m"]⟩ (ensureReady ⟨["m"]⟩ (fun _ => Status.stopped) "m" true).1 "m" false
      = ((ensureReady ⟨["m"]⟩ (fun _ => Status.stopped) "m" true).1, [], true) :=
  ⟨(ensureReady_idem ⟨["m"]⟩ (fun _ => Status.ready) "m" true true).1 rfl,
   (ensureReady_idem ⟨["m"]⟩ (fun _ => Status.stopped) "m" true false).2⟩

/-- Claim C2: if any per-page inference call fails, `digitalize` aborts
with an `InferenceError` and the persistent state is returned exactly
unchanged: zero new `Document` rows, zero new artifact files, zero new log
lines. -/
theorem digitalize_inference_atomic (uploadId : String) (file : UploadFile)
    (limit : Nat) (infer : Nat → String → Except Unit String)
    (req : DigitalizeRequest) (docId : Nat) (st : PipelineState)
    (pages : List String) (i : Nat)
    (hras : rasterize file limit = .ok pages)
    (hinf : runInference infer 1 pages = .error i) :
    digitalize uploadId (some file) limit true infer req docId st
      = (st, .error (.inference i)) := by
  have hemp : pages.isEmpty = false := by
    rcases pages with _ | ⟨p, ps⟩
    · simp [runInference] at hinf
    · rfl
  rw [digitalize_some]
  unfold digitalizeFile
  rw [hras]
  simp [hemp, hinf]

/-- Witness for C2: a one-page PDF whose inference call fails leaves the
empty state empty. -/
theorem digitalize_inference_atomic_witness :
    digitalize "u" (some ⟨"application/pdf", "", .ok ["p1"]⟩) 5 true
        (fun _ _ => .error ()) ⟨.markdown, "m", "t"⟩ 0 ⟨[], [], []⟩
      = (⟨[], [], []⟩, .error (.inference 1)) :=
  digitalize_inference_atomic "u" ⟨"application/pdf", "", .ok ["p1"]⟩ 5
    (fun _ _ => .error ()) ⟨.markdown, "m", "t"⟩ 0 ⟨[], [], []⟩ ["p1"] 1 rfl rfl

/-- Claim C3: for a PDF that rasterizes, the Rasterizer produces the pages
in order capped at the page limit, without error: when the PDF has more
than `limit` pages exactly `limit` pages are produced (the rest silently
dropped); when it has at most `limit` pages all pages are produced. -/
theorem rasterize_page_limit (file : UploadFile) (pdfPages : List String) (limit : Nat)
    (hmime : file.mimeType = "application/pdf")
    (hpdf : file.pdfPages = .ok pdfPages) :
    rasterize file limit = .ok (pdfPages.take limit) ∧
    (limit < pdfPages.length → (pdfPages.take limit).length = limit) ∧
    (pdfPages.length ≤ limit → pdfPages.take limit = pdfPages) := by
  refine ⟨?_, ?_, ?_⟩
  · unfold rasterize
    rw [hmime, hpdf]
    have hne : strStartsWith "application/pdf" "image/" = false := by decide
    rw [hne]
    simp
  · intro hlt
    rw [List.length_take]
    omega
  · exact List.take_of_length_le

/-- Witness for C3: a 3-page PDF with limit 2 yields exactly 2 pages; a
2-page PDF with limit 3 yields both pages. -/
theorem rasterize_page_limit_witness :
    (List.take 2 ["a", "b", "c"]).length = 2 ∧
      List.take 3 ["a", "b"] = ["a", "b"] :=
  ⟨(rasterize_page_limit ⟨"application/pdf", "", .ok ["a", "b", "c"]⟩ ["a", "b", "c"] 2
      rfl rfl).2.1 (by decide),
   (rasterize_page_limit ⟨"application/pdf", "", .ok ["a", "b"]⟩ ["a", "b"] 3
      rfl rfl).2.2 (by decide)⟩

/-- Claim C4: every successful `digitalize` call — in particular on a
multi-page PDF — creates exactly one new `Document` row, appended to the
existing rows (no prior `Document` is overwritten or removed). -/
theorem digitalize_single_document (uploadId : String) (upload : Option UploadFile)
    (limit : Nat) (serviceReady : Bool) (infer : Nat → String → Except Unit String)
    (req : DigitalizeRequest) (docId : Nat) (st st' : PipelineState)
    (docs : List DocumentRow)
    (h : digitalize uploadId upload limit serviceReady infer req docId st = (st', .ok docs)) :
    docs.length = 1 ∧ st'.documents = st.documents ++ docs := by
  rcases upload with _ | file
  · exact absurd (congrArg Prod.snd h) (by simp [digitalize])
  · rw [digitalize_some] at h
    unfold digitalizeFile at h
    repeat' split at h
    all_goals injection h with h1 h2
    all_goals try exact Except.noConfusion h2
    all_goals injection h2 with h3
    all_goals subst h3
    all_goals subst h1
    all_goals exact ⟨rfl, rfl⟩

/-- Witness for C4: a successful markdown conversion of a 2-page PDF over
an empty state creates exactly one row. -/
theorem digitalize_single_document_witness :
    ([({ id := 7, uploadId := "u", title := "t", format := .markdown,
         storedName := "documents/" ++ toString 7 ++ ".md",
         layout := none } : DocumentRow)].length = 1) ∧
    ({ documents := [({ id := 7, uploadId := "u", title := "t", format := .markdown,
                        storedName := "documents/" ++ toString 7 ++ ".md",
                        layout := none } : DocumentRow)],
       files := ["documents/" ++ toString 7 ++ ".md"],
       logs := [{ modelId := "m", pageCount := 2 }] } : PipelineState).documents
      = ({ documents := [], files := [], logs := [] } : PipelineState).documents ++
        [({ id := 7, uploadId := "u", title := "t", format := .markdown,
            storedName := "documents/" ++ toString 7 ++ ".md",
            layout := none } : DocumentRow)] :=
  digitalize_single_document "u" (some ⟨"application/pdf", "", .ok ["p1", "p2"]⟩) 5 true
    (fun _ _ => .ok "text") ⟨.markdown, "m", "t"⟩ 7 ⟨[], [], []⟩ _ _ rfl

/-- Claim C5: every successful layout conversion produces a single
`Document` whose `LayoutDocument` has strictly increasing (1-based) page
indices, exactly as many pages as the rasterized page count, and, in the
resulting persistent state, every page's image file path present on disk. -/
theorem digitalize_layout_invariant (uploadId : String) (file : UploadFile)
    (limit : Nat) (infer : Nat → String → Except Unit String)
    (req : DigitalizeRequest) (docId : Nat) (st st' : PipelineState)
    (docs : List DocumentRow) (pages : List String)
    (hfmt : req.targetFormat = .layout)
    (hras : rasterize file limit = .ok pages)
    (h : digitalize uploadId (some file) limit true infer req docId st = (st', .ok docs)) :
    ∃ doc L, docs = [doc] ∧ doc.layout = some L ∧
      (L.pages.map LayoutPage.index).Pairwise (· < ·) ∧
      L.pages.length = pages.length ∧
      ∀ p ∈ L.pages, p.image.url ∈ st'.files := by
  rw [digitalize_some] at h
  unfold digitalizeFile at h
  repeat' split at h
  all_goals injection h with h1 h2
  all_goals try exact Except.noConfusion h2
  all_goals injection h2 with h3
  all_goals subst h3
  all_goals subst h1
  all_goals try exact absurd hfmt (by assumption)
  rename_i x1 pages2 heqras hemp hsr x2 ts heqinf x3 heqfmt
  have hpp : pages2 = pages := by
    have hh := heqras.symm.trans hras
    injection hh
  subst hpp
  refine ⟨_, _, rfl, rfl, ?_, ?_, ?_⟩
  · rw [layoutPagesFrom_map_index]
    exact List.pairwise_lt_range' 1 ts.length
  · rw [layoutPagesFrom_length]
    exact runInference_length infer 1 pages2 ts heqinf
  · intro p hp
    exact List.mem_append_left _ (List.mem_append_right _ (List.mem_map_of_mem _ hp))

/-- Witness for C5: a successful layout conversion of a 2-page PDF. -/
theorem digitalize_layout_invariant_witness :
    ∃ doc L,
      [({ id := 3, uploadId := "u", title := "ti", format := .layout,
          storedName := "documents/" ++ toString 3 ++ ".json",
          layout := some { version := 1, pages := layoutPagesFrom 3 1 ["t", "t"] } } : DocumentRow)]
        = [doc] ∧
      doc.layout = some L ∧
      (L.pages.map LayoutPage.index).Pairwise (· < ·) ∧
      L.pages.length = (["p1", "p2"] : List String).length ∧
      ∀ p ∈ L.pages, p.image.url ∈
        ({ documents := [({ id := 3, uploadId := "u", title := "ti", format := .layout,
                            storedName := "documents/" ++ toString 3 ++ ".json",
                            layout := some { version := 1,
                                             pages := layoutPagesFrom 3 1 ["t", "t"] } } : DocumentRow)],
           files := (layoutPagesFrom 3 1 ["t", "t"]).map (fun p => p.image.url) ++
             ["documents/" ++ toString 3 ++ ".json"],
           logs := [{ modelId := "m", pageCount := 2 }] } : PipelineState).files :=
  digitalize_layout_invariant "u" ⟨"application/pdf", "", .ok ["p1", "p2"]⟩ 5
    (fun _ _ => .ok "t") ⟨.layout, "m", "ti"⟩ 3 ⟨[], [], []⟩ _ _ ["p1", "p2"]
    rfl rfl rfl

/-- Claim C6: `updatePageText` rewrites only the `text` field of pages
whose index equals the target: page count, every page's `index`, and every
page's `image` (the reference under which the image file is stored) are
unchanged, and a page whose index differs from the target is unchanged
entirely.  No operation on image files exists in this code path, so a
text-only (or title-only) edit deletes no image file. -/
theorem updatePageText_frame (previous : LayoutDocument) (target : Nat) (value : String) :
    (updatePageText previous target value).version = previous.version ∧
    (updatePageText previous target value).pages.length = previous.pages.length ∧
    ((updatePageText previous target value).pages.map LayoutPage.index =
      previous.pages.map LayoutPage.index) ∧
    ((updatePageText previous target value).pages.map LayoutPage.image =
      previous.pages.map LayoutPage.image) ∧
    ∀ i : Fin previous.pages.length,
      (previous.pages.get i).index ≠ target →
        (updatePageText previous target value).pages.get
          (Fin.cast (by simp [updatePageText]) i) = previous.pages.get i := by
  refine ⟨rfl, by simp [updatePageText], ?_, ?_, ?_⟩
  · simp only [updatePageText, List.map_map]
    apply List.map_congr_left
    intro page _
    by_cases h : page.index = target <;> simp [h]
  · simp only [updatePageText, List.map_map]
    apply List.map_congr_left
    intro page _
    by_cases h : page.index = target <;> simp [h]
  · intro i hne
    simp only [updatePageText, List.get_eq_getElem, Fin.coe_cast, List.getElem_map]
    rw [if_neg (by simpa using hne)]

/-- Witness for C6: editing the page with index 2 leaves the page with
index 1 untouched. -/
theorem updatePageText_frame_witness :
    (updatePageText ⟨1, [⟨1, "a", ⟨"u1", 10, 20⟩⟩, ⟨2, "b", ⟨"u2", 30, 40⟩⟩]⟩ 2 "new").pages.get
        (Fin.cast (by decide) (⟨0, by decide⟩ : Fin 2))
      = (⟨1, [⟨1, "a", ⟨"u1", 10, 20⟩⟩, ⟨2, "b", ⟨"u2", 30, 40⟩⟩]⟩ : LayoutDocument).pages.get
        (⟨0, by decide⟩ : Fin 2) :=
  (updatePageText_frame ⟨1, [⟨1, "a", ⟨"u1", 10, 20⟩⟩, ⟨2, "b", ⟨"u2", 30, 40⟩⟩]⟩ 2 "new").2.2.2.2
    (⟨0, by decide⟩ : Fin 2) (by decide)

/-- Claim C8: the streaming display is a pure function of the stored
document content: appending the tokens of `text.match(/\s+|\S+/g)` in
order to an initially empty string reproduces the original content
exactly — no characters are lost, duplicated, or reordered. -/
theorem streamedContent_eq (s : String) : streamedContent s = s := by
  apply String.ext
  rw [streamedContent, streamTokens, streamTokens_foldl_data, tokenRuns_flatten]
  rfl

/-- Claim C9: `downloadUrl` returns an `http://` or `https://` path
unchanged; otherwise it returns the download base concatenated with the
path, adding one `/` separator exactly when the path does not already
start with one. -/
theorem downloadUrl_cases (base path : String) :
    downloadUrl base path =
      if strStartsWith path "http://" || strStartsWith path "https://" then path
      else if strStartsWith path "/" then base ++ path
      else base ++ ("/" ++ path) := by
  unfold downloadUrl
  by_cases h : strStartsWith path "http://" || strStartsWith path "https://"
  · simp [h]
  · simp only [h, Bool.false_eq_true, if_false]
    by_cases hs : strStartsWith path "/" <;> simp [hs]

/-- Claim C10: starting from the initial zoom value 1, any sequence of
`handleZoom` calls (with arbitrary deltas) and `resetZoom` calls leaves
the stored zoom value within `[0.5, 3]`. -/
theorem zoom_bounded (ops : List ZoomOp) :
    1/2 ≤ runZoomOps ops ∧ runZoomOps ops ≤ 3 := by
  have hstep : ∀ (z : ℚ) (op : ZoomOp),
      1/2 ≤ z → z ≤ 3 → 1/2 ≤ applyZoomOp z op ∧ applyZoomOp z op ≤ 3 := by
    intro z op _ _
    cases op with
    | zoomBy delta =>
        constructor
        · exact le_min (by norm_num) (le_max_left _ _)
        · exact min_le_left _ _
    | reset =>
        exact ⟨by norm_num [applyZoomOp, resetZoom], by norm_num [applyZoomOp, resetZoom]⟩
  have key : ∀ (rest : List ZoomOp) (z : ℚ), 1/2 ≤ z → z ≤ 3 →
      1/2 ≤ rest.foldl applyZoomOp z ∧ rest.foldl applyZoomOp z ≤ 3 := by
    intro rest
    induction rest with
    | nil => intro z h1 h2; exact ⟨h1, h2⟩
    | cons op rest ih =>
        intro z h1 h2
        have h := hstep z op h1 h2
        exact ih _ h.1 h.2
  exact key ops 1 (by norm_num) (by norm_num)

end NoteVLM
